import Mathlib

/-!
Verification of the BMP decoder in `src/bmp.rs`.

The decoder is embedded shallowly: the byte buffer is a `List Nat` (each
element a byte value), the mutable `cursor : usize` becomes explicit state,
and every fallible Rust function `fn f(...) -> Result<T, String>` becomes a
Lean function returning `Except String T × Nat` — the pair carries the value
the mutable cursor holds after the call, whether the call succeeded or not
(Rust writes to `*cursor` only on the success path, so on failure the pair's
second component is the unchanged input cursor wherever the source leaves it
unchanged).

`mem::transmute::<[u8; 4], u32>` reinterprets the four bytes in the host
machine's byte order, so the primitive integer reads are parameterized by a
`ByteOrder`; the rest of the pipeline is instantiated at `ByteOrder.little`,
the byte order of the machines the program is observed to run on.
-/

namespace Bmp

/-- The raw file contents: an immutable sequence of byte values. -/
abbrev Buf := List Nat

/-- A pixel with color and alpha information in the range 0-255
(struct `Pixel` in the source). -/
structure Pixel where
  red : Nat
  green : Nat
  blue : Nat
  alpha : Nat
  deriving DecidableEq, Repr

/-- The DIB-header fields the decoder keeps (struct `DIBHeader`). -/
structure DIBHeader where
  width : Nat
  height : Nat
  depth : Nat
  deriving DecidableEq, Repr

/-- Return value of a successful decode (struct `DecodedBMP`). -/
structure DecodedBMP where
  width : Nat
  height : Nat
  data : List (List Pixel)
  deriving DecidableEq, Repr

/-- Error string of `consume_n`: "BMP file is too small." (the
`OutOfBounds` error of the spec). -/
def outOfBoundsMsg : String := "BMP file is too small."

/-- Error string of `read_bmp_header` on a bad magic: the spec's
`InvalidMagic`. -/
def invalidMagicMsg : String := "BMP file header has incorrect magic values."

/-- Error string for an unrecognized DIB header length: the spec's
`UnsupportedHeaderVariant`. -/
def unsupportedHeaderMsg : String := "Unsupported DIB header type."

/-- Error string for a bit depth other than 24/32: the spec's
`UnsupportedBitDepth`. -/
def unsupportedDepthMsg : String := "Unsupported bit depth."

/-- Error string of the (unreachable) defensive branch in
`read_dword` / `read_word`. -/
def badAccessMsg : String := "Incorrect byte access."

/-- `fn consume_n(data, cursor, n)`: advances the cursor by `n` after
checking `cursor + n > data.len()`; on failure the cursor is not written. -/
def consume_n (data : Buf) (cursor n : Nat) : Except String Unit × Nat :=
  if cursor + n > data.length then (Except.error outOfBoundsMsg, cursor)
  else (Except.ok (), cursor + n)

/-- `fn read_n_bytes(data, cursor, n)`: consumes `n` bytes and returns the
slice `data[orig..orig + n]`. -/
def read_n_bytes (data : Buf) (cursor n : Nat) : Except String (List Nat) × Nat :=
  match consume_n data cursor n with
  | (Except.error e, c) => (Except.error e, c)
  | (Except.ok _, c) => (Except.ok ((data.drop cursor).take n), c)

/-- The host machine's byte order, which fixes the meaning of
`mem::transmute` between a byte array and an unsigned integer. -/
inductive ByteOrder where
  | little
  | big
  deriving DecidableEq, Repr

/-- `mem::transmute::<[u8; 4], u32>(barr)`: the integer whose in-memory
byte representation on a host of order `e` is `b0 b1 b2 b3`. -/
def transmute4 (e : ByteOrder) (b0 b1 b2 b3 : Nat) : Nat :=
  match e with
  | ByteOrder.little => b0 + 256 * b1 + 65536 * b2 + 16777216 * b3
  | ByteOrder.big => b3 + 256 * b2 + 65536 * b1 + 16777216 * b0

/-- `mem::transmute::<[u8; 2], u16>(barr)` on a host of order `e`. -/
def transmute2 (e : ByteOrder) (b0 b1 : Nat) : Nat :=
  match e with
  | ByteOrder.little => b0 + 256 * b1
  | ByteOrder.big => b1 + 256 * b0

/-- `fn read_dword(data, cursor)`: reads 4 bytes, copies them into a
4-byte array (with the source's defensive `bytes.get(i)` check), and
transmutes the array to a `u32` in the host byte order `e`. -/
def read_dword_host (e : ByteOrder) (data : Buf) (cursor : Nat) :
    Except String Nat × Nat :=
  match read_n_bytes data cursor 4 with
  | (Except.error er, c) => (Except.error er, c)
  | (Except.ok bytes, c) =>
    match bytes.get? 0, bytes.get? 1, bytes.get? 2, bytes.get? 3 with
    | some b0, some b1, some b2, some b3 =>
        (Except.ok (transmute4 e b0 b1 b2 b3), c)
    | _, _, _, _ => (Except.error badAccessMsg, c)

/-- `fn read_word(data, cursor)`: reads 2 bytes and transmutes them to a
`u16` in the host byte order `e`. -/
def read_word_host (e : ByteOrder) (data : Buf) (cursor : Nat) :
    Except String Nat × Nat :=
  match read_n_bytes data cursor 2 with
  | (Except.error er, c) => (Except.error er, c)
  | (Except.ok bytes, c) =>
    match bytes.get? 0, bytes.get? 1 with
    | some b0, some b1 => (Except.ok (transmute2 e b0 b1), c)
    | _, _ => (Except.error badAccessMsg, c)

/-- `read_dword` as the pipeline uses it, on a little-endian host. -/
def read_dword (data : Buf) (cursor : Nat) : Except String Nat × Nat :=
  read_dword_host ByteOrder.little data cursor

/-- `read_word` as the pipeline uses it, on a little-endian host. -/
def read_word (data : Buf) (cursor : Nat) : Except String Nat × Nat :=
  read_word_host ByteOrder.little data cursor

/-- `fn read_byte(data, cursor)`: consumes one byte and returns
`data[orig]`. -/
def read_byte (data : Buf) (cursor : Nat) : Except String Nat × Nat :=
  match consume_n data cursor 1 with
  | (Except.error e, c) => (Except.error e, c)
  | (Except.ok _, c) => (Except.ok (data.getD cursor 0), c)

/-- `fn read_bmp_header(data, cursor)`: consumes the 14-byte file header,
then checks `data[orig] == 'B' && data[orig+1] == 'M'` (66 and 77). The
magic check happens after the cursor has already advanced by 14. -/
def read_bmp_header (data : Buf) (cursor : Nat) : Except String Unit × Nat :=
  match consume_n data cursor 14 with
  | (Except.error e, c) => (Except.error e, c)
  | (Except.ok _, c) =>
    if data.getD cursor 0 ≠ 66 ∨ data.getD (cursor + 1) 0 ≠ 77 then
      (Except.error invalidMagicMsg, c)
    else (Except.ok (), c)

/-- `fn read_dib_header(data, cursor)`: reads the 4-byte header length
(accepting exactly 40, 52, 56, 108, 124), width, height, skips the 2-byte
plane count, reads the 2-byte depth (accepting 24 and 32), then skips the
`length - 16` remaining header bytes. -/
def read_dib_header (data : Buf) (cursor : Nat) : Except String DIBHeader × Nat :=
  match read_dword data cursor with
  | (Except.error e, c) => (Except.error e, c)
  | (Except.ok length, c1) =>
    if length = 40 ∨ length = 52 ∨ length = 56 ∨ length = 108 ∨ length = 124 then
      match read_dword data c1 with
      | (Except.error e, c) => (Except.error e, c)
      | (Except.ok width, c2) =>
        match read_dword data c2 with
        | (Except.error e, c) => (Except.error e, c)
        | (Except.ok height, c3) =>
          match consume_n data c3 2 with
          | (Except.error e, c) => (Except.error e, c)
          | (Except.ok _, c4) =>
            match read_word data c4 with
            | (Except.error e, c) => (Except.error e, c)
            | (Except.ok depth, c5) =>
              if depth = 24 ∨ depth = 32 then
                match consume_n data c5 (length - 16) with
                | (Except.error e, c) => (Except.error e, c)
                | (Except.ok _, c6) =>
                    (Except.ok ⟨width, height, depth⟩, c6)
              else (Except.error unsupportedDepthMsg, c5)
    else (Except.error unsupportedHeaderMsg, c1)

/-- One pixel of the inner loop of `read_pixel_array`: alpha is `0` when
`depth == 24` and otherwise read first, then blue, green, red. -/
def read_pixel (data : Buf) (depth cursor : Nat) : Except String Pixel × Nat :=
  match (if depth = 24 then (Except.ok 0, cursor) else read_byte data cursor) with
  | (Except.error e, c) => (Except.error e, c)
  | (Except.ok a, c1) =>
    match read_byte data c1 with
    | (Except.error e, c) => (Except.error e, c)
    | (Except.ok b, c2) =>
      match read_byte data c2 with
      | (Except.error e, c) => (Except.error e, c)
      | (Except.ok g, c3) =>
        match read_byte data c3 with
        | (Except.error e, c) => (Except.error e, c)
        | (Except.ok r, c4) => (Except.ok ⟨r, g, b, a⟩, c4)

/-- The inner `for _ in 0..width` loop of `read_pixel_array`: reads `n`
pixels in order into a row. -/
def read_row_pixels (data : Buf) (depth : Nat) :
    Nat → Nat → Except String (List Pixel) × Nat
  | 0, c => (Except.ok [], c)
  | n + 1, c =>
    match read_pixel data depth c with
    | (Except.error e, c') => (Except.error e, c')
    | (Except.ok p, c1) =>
      match read_row_pixels data depth n c1 with
      | (Except.error e, c') => (Except.error e, c')
      | (Except.ok ps, c2) => (Except.ok (p :: ps), c2)

/-- One iteration of the outer loop of `read_pixel_array`: a row of
`width` pixels followed by `consume_n` of the `pad` bytes. -/
def read_row (data : Buf) (depth width pad c : Nat) :
    Except String (List Pixel) × Nat :=
  match read_row_pixels data depth width c with
  | (Except.error e, c') => (Except.error e, c')
  | (Except.ok ps, c1) =>
    match consume_n data c1 pad with
    | (Except.error e, c') => (Except.error e, c')
    | (Except.ok _, c2) => (Except.ok ps, c2)

/-- The outer `for _ in 0..height` loop of `read_pixel_array`: rows in
storage order (first-read row first). -/
def read_rows (data : Buf) (depth width pad : Nat) :
    Nat → Nat → Except String (List (List Pixel)) × Nat
  | 0, c => (Except.ok [], c)
  | h + 1, c =>
    match read_row data depth width pad c with
    | (Except.error e, c') => (Except.error e, c')
    | (Except.ok row, c1) =>
      match read_rows data depth width pad h c1 with
      | (Except.error e, c') => (Except.error e, c')
      | (Except.ok rows, c2) => (Except.ok (row :: rows), c2)

/-- `fn read_pixel_array(data, cursor, info)`: `pad_bytes = info.width % 4`;
reads `info.height` rows of `info.width` pixels each, then reverses the row
order (`pixel_arr.reverse()`). -/
def read_pixel_array (data : Buf) (info : DIBHeader) (cursor : Nat) :
    Except String (List (List Pixel)) × Nat :=
  match read_rows data info.depth info.width (info.width % 4) info.height cursor with
  | (Except.error e, c) => (Except.error e, c)
  | (Except.ok rows, c) => (Except.ok rows.reverse, c)

/-- `fn decode_bmp`: the in-memory pipeline after the file bytes have been
loaded — `read_bmp_header`, `read_dib_header`, `read_pixel_array` over a
fresh cursor at 0 (the file I/O is the external collaborator). -/
def decode_bmp (data : Buf) : Except String DecodedBMP :=
  match read_bmp_header data 0 with
  | (Except.error e, _) => Except.error e
  | (Except.ok _, c1) =>
    match read_dib_header data c1 with
    | (Except.error e, _) => Except.error e
    | (Except.ok info, c2) =>
      match read_pixel_array data info c2 with
      | (Except.error e, _) => Except.error e
      | (Except.ok arr, _) => Except.ok ⟨info.width, info.height, arr⟩

/-! Concrete buffers used to instantiate the theorems. -/

/-- A well-formed 14-byte BMP file header: the magic `'B' 'M'` followed by
12 ignored bytes. -/
def exFileHeader : Buf := 66 :: 77 :: List.replicate 12 0

/-- A 40-byte DIB header declaring length 40, width `w`, height `h`
(each < 256), two plane bytes, depth `d` (< 256), and 24 trailing bytes. -/
def exDibHeader (w h d : Nat) : Buf :=
  [40, 0, 0, 0, w, 0, 0, 0, h, 0, 0, 0, 0, 0, d, 0] ++ List.replicate 24 0

/-- A complete 1×1 32-bit file whose single pixel group stores the bytes
10, 20, 30, 40 (followed by the 1 padding byte demanded by `1 % 4`). -/
def exBuf32 : Buf := exFileHeader ++ exDibHeader 1 1 32 ++ [10, 20, 30, 40, 0]

/-- A complete 2×2 24-bit file: two stored rows of two pixels each, every
row followed by 2 padding bytes (which carry the marker value 9). -/
def exBuf24 : Buf :=
  exFileHeader ++ exDibHeader 2 2 24 ++
    [255, 0, 0, 0, 255, 0, 9, 9] ++ [0, 0, 255, 1, 1, 1, 9, 9]

/-- A file that ends right after a valid file header and DIB header
(width 1, height 1, depth 24): both header stages succeed. -/
def exBufHeaderOnly : Buf := exFileHeader ++ exDibHeader 1 1 24

/-- A 40-byte DIB header alone, declaring bit depth 8 and width/height 1. -/
def exDib8 : Buf := exDibHeader 1 1 8

/-- One stored 24-bit row of width 2 plus its 2 padding bytes. -/
def exRowBuf : Buf := [255, 0, 0, 0, 255, 0, 9, 9]

/-- The raw pixel array of a 2×2 24-bit image: two stored rows of 6 pixel
bytes, each followed by its 2 padding bytes (marker value 9). -/
def exStoredRows : Buf :=
  [255, 0, 0, 0, 255, 0, 9, 9, 0, 0, 255, 1, 1, 1, 9, 9]

/-- The little-endian value of the 4 bytes at offset `c`. -/
def dwordAt (data : Buf) (c : Nat) : Nat :=
  data.getD c 0 + 256 * data.getD (c + 1) 0 + 65536 * data.getD (c + 2) 0 +
    16777216 * data.getD (c + 3) 0

/-- The little-endian value of the 2 bytes at offset `c`. -/
def wordAt (data : Buf) (c : Nat) : Nat :=
  data.getD c 0 + 256 * data.getD (c + 1) 0

section Lemmas

variable {data : Buf} {c c' n : Nat}

theorem consume_n_ok_iff {u : Unit} :
    consume_n data c n = (Except.ok u, c') ↔ c + n ≤ data.length ∧ c' = c + n := by
  unfold consume_n
  split <;> simp <;> omega

theorem consume_n_err_elim {m : String} (h : consume_n data c n = (Except.error m, c')) :
    m = outOfBoundsMsg ∧ c' = c ∧ data.length < c + n := by
  unfold consume_n at h
  split at h <;> simp_all <;> omega

theorem consume_n_eval (h : c + n ≤ data.length) :
    consume_n data c n = (Except.ok (), c + n) := by
  unfold consume_n
  split <;> simp <;> omega

theorem take_drop_get? {i : Nat} (h : i < n) :
    ((data.drop c).take n).get? i = data.get? (c + i) := by
  rw [List.get?_take h, List.get?_drop]

theorem get?_eq_some_getD {i : Nat} (h : i < data.length) :
    data.get? i = some (data.getD i 0) := by
  rw [List.getD_eq_getElem data 0 h, List.get?_eq_getElem?, List.getElem?_eq_getElem h]

theorem read_n_bytes_eval (h : c + n ≤ data.length) :
    read_n_bytes data c n = (Except.ok ((data.drop c).take n), c + n) := by
  unfold read_n_bytes
  rw [consume_n_eval h]

theorem read_byte_eval (h : c + 1 ≤ data.length) :
    read_byte data c = (Except.ok (data.getD c 0), c + 1) := by
  unfold read_byte
  rw [consume_n_eval h]

theorem read_byte_ok_elim {v : Nat} (h : read_byte data c = (Except.ok v, c')) :
    v = data.getD c 0 ∧ c' = c + 1 ∧ c + 1 ≤ data.length := by
  unfold read_byte at h
  rcases hc : consume_n data c 1 with ⟨res, cc⟩
  rcases res with e | u <;> rw [hc] at h <;> simp_all
  rcases consume_n_ok_iff.mp hc with ⟨h1, h2⟩
  omega

theorem read_byte_err_elim {m : String} (h : read_byte data c = (Except.error m, c')) :
    m = outOfBoundsMsg ∧ c' = c ∧ data.length < c + 1 := by
  unfold read_byte at h
  rcases hc : consume_n data c 1 with ⟨res, cc⟩
  rcases res with e | u <;> rw [hc] at h <;> simp_all
  exact consume_n_err_elim hc

theorem read_dword_host_eval {e : ByteOrder} (h : c + 4 ≤ data.length) :
    read_dword_host e data c =
      (Except.ok (transmute4 e (data.getD c 0) (data.getD (c + 1) 0)
        (data.getD (c + 2) 0) (data.getD (c + 3) 0)), c + 4) := by
  unfold read_dword_host
  rw [read_n_bytes_eval h]
  dsimp only
  rw [take_drop_get? (by omega), take_drop_get? (by omega),
    take_drop_get? (by omega), take_drop_get? (by omega)]
  rw [get?_eq_some_getD (by omega), get?_eq_some_getD (by omega),
    get?_eq_some_getD (by omega), get?_eq_some_getD (by omega)]
  simp

theorem read_dword_eval (h : c + 4 ≤ data.length) :
    read_dword data c = (Except.ok (dwordAt data c), c + 4) := by
  unfold read_dword dwordAt
  rw [read_dword_host_eval h]
  rfl

theorem read_word_host_eval {e : ByteOrder} (h : c + 2 ≤ data.length) :
    read_word_host e data c =
      (Except.ok (transmute2 e (data.getD c 0) (data.getD (c + 1) 0)), c + 2) := by
  unfold read_word_host
  rw [read_n_bytes_eval h]
  dsimp only
  rw [take_drop_get? (by omega), take_drop_get? (by omega)]
  rw [get?_eq_some_getD (by omega), get?_eq_some_getD (by omega)]
  simp

theorem read_word_eval (h : c + 2 ≤ data.length) :
    read_word data c = (Except.ok (wordAt data c), c + 2) := by
  unfold read_word wordAt
  rw [read_word_host_eval h]
  rfl

theorem read_dword_host_ok_elim {e : ByteOrder} {v : Nat}
    (h : read_dword_host e data c = (Except.ok v, c')) :
    c' = c + 4 ∧ c + 4 ≤ data.length := by
  by_cases hb : c + 4 ≤ data.length
  · rw [read_dword_host_eval hb] at h
    simp_all
  · unfold read_dword_host read_n_bytes at h
    rcases hc : consume_n data c 4 with ⟨res, cc⟩
    rcases res with e | u <;> rw [hc] at h <;> simp_all
    rcases consume_n_ok_iff.mp hc with ⟨h1, h2⟩
    omega

theorem read_dword_host_err_elim {e : ByteOrder} {m : String}
    (h : read_dword_host e data c = (Except.error m, c')) :
    m = outOfBoundsMsg ∧ c' = c ∧ data.length < c + 4 := by
  by_cases hb : c + 4 ≤ data.length
  · rw [read_dword_host_eval hb] at h
    simp_all
  · unfold read_dword_host read_n_bytes at h
    rcases hc : consume_n data c 4 with ⟨res, cc⟩
    rcases res with er | u <;> rw [hc] at h
    · rcases consume_n_err_elim hc with ⟨h1, h2, h3⟩
      simp_all
    · rcases consume_n_ok_iff.mp hc with ⟨h1, h2⟩
      omega

theorem read_word_host_ok_elim {e : ByteOrder} {v : Nat}
    (h : read_word_host e data c = (Except.ok v, c')) :
    c' = c + 2 ∧ c + 2 ≤ data.length := by
  by_cases hb : c + 2 ≤ data.length
  · rw [read_word_host_eval hb] at h
    simp_all
  · unfold read_word_host read_n_bytes at h
    rcases hc : consume_n data c 2 with ⟨res, cc⟩
    rcases res with e | u <;> rw [hc] at h <;> simp_all
    rcases consume_n_ok_iff.mp hc with ⟨h1, h2⟩
    omega

theorem read_word_host_err_elim {e : ByteOrder} {m : String}
    (h : read_word_host e data c = (Except.error m, c')) :
    m = outOfBoundsMsg ∧ c' = c ∧ data.length < c + 2 := by
  by_cases hb : c + 2 ≤ data.length
  · rw [read_word_host_eval hb] at h
    simp_all
  · unfold read_word_host read_n_bytes at h
    rcases hc : consume_n data c 2 with ⟨res, cc⟩
    rcases res with er | u <;> rw [hc] at h
    · rcases consume_n_err_elim hc with ⟨h1, h2, h3⟩
      simp_all
    · rcases consume_n_ok_iff.mp hc with ⟨h1, h2⟩
      omega

theorem read_n_bytes_err_eval (h : data.length < c + n) :
    read_n_bytes data c n = (Except.error outOfBoundsMsg, c) := by
  unfold read_n_bytes consume_n
  split <;> simp_all

theorem read_byte_err_eval (h : data.length < c + 1) :
    read_byte data c = (Except.error outOfBoundsMsg, c) := by
  unfold read_byte consume_n
  split <;> simp_all

theorem read_dword_host_err_eval {e : ByteOrder} (h : data.length < c + 4) :
    read_dword_host e data c = (Except.error outOfBoundsMsg, c) := by
  unfold read_dword_host
  rw [read_n_bytes_err_eval h]

theorem read_word_host_err_eval {e : ByteOrder} (h : data.length < c + 2) :
    read_word_host e data c = (Except.error outOfBoundsMsg, c) := by
  unfold read_word_host
  rw [read_n_bytes_err_eval h]

theorem read_bmp_header_char (data : Buf) (c : Nat) :
    read_bmp_header data c =
      if data.length < c + 14 then (Except.error outOfBoundsMsg, c)
      else if data.getD c 0 ≠ 66 ∨ data.getD (c + 1) 0 ≠ 77 then
        (Except.error invalidMagicMsg, c + 14)
      else (Except.ok (), c + 14) := by
  unfold read_bmp_header
  by_cases hb : data.length < c + 14
  · rw [if_pos hb]
    have : consume_n data c 14 = (Except.error outOfBoundsMsg, c) := by
      unfold consume_n
      split <;> simp_all
    rw [this]
  · rw [if_neg hb, consume_n_eval (by omega)]

theorem read_pixel_eval24 (h : c + 3 ≤ data.length) :
    read_pixel data 24 c =
      (Except.ok ⟨data.getD (c + 2) 0, data.getD (c + 1) 0, data.getD c 0, 0⟩, c + 3) := by
  unfold read_pixel
  rw [if_pos rfl]
  dsimp only
  rw [read_byte_eval (by omega)]
  dsimp only
  rw [read_byte_eval (by omega)]
  dsimp only
  rw [read_byte_eval (by omega)]

theorem read_pixel_eval_other (hd : depth ≠ 24) (h : c + 4 ≤ data.length) :
    read_pixel data depth c =
      (Except.ok ⟨data.getD (c + 3) 0, data.getD (c + 2) 0, data.getD (c + 1) 0,
        data.getD c 0⟩, c + 4) := by
  unfold read_pixel
  rw [if_neg hd]
  rw [read_byte_eval (by omega)]
  dsimp only
  rw [read_byte_eval (by omega)]
  dsimp only
  rw [read_byte_eval (by omega)]
  dsimp only
  rw [read_byte_eval (by omega)]

theorem read_pixel_ok_elim {depth : Nat} {p : Pixel}
    (h : read_pixel data depth c = (Except.ok p, c')) :
    (depth = 24 → p.alpha = 0 ∧ c' = c + 3 ∧ c + 3 ≤ data.length) ∧
    (depth ≠ 24 → p.alpha = data.getD c 0 ∧ p.blue = data.getD (c + 1) 0 ∧
      p.green = data.getD (c + 2) 0 ∧ p.red = data.getD (c + 3) 0 ∧
      c' = c + 4 ∧ c + 4 ≤ data.length) := by
  by_cases hd : depth = 24
  · subst hd
    by_cases hb : c + 3 ≤ data.length
    · rw [read_pixel_eval24 hb] at h
      rw [Prod.mk.injEq, Except.ok.injEq] at h
      obtain ⟨hp, hc⟩ := h
      subst hp
      exact ⟨fun _ => ⟨rfl, hc.symm, hb⟩, fun hne => absurd rfl hne⟩
    · unfold read_pixel at h
      rw [if_pos rfl] at h
      dsimp only at h
      rcases h2 : read_byte data c with ⟨r2, d2⟩
      rcases r2 with e2 | v2 <;> rw [h2] at h
      · simp_all
      · obtain ⟨hv2, hc2, hl2⟩ := read_byte_ok_elim h2
        dsimp only at h
        rcases h3 : read_byte data d2 with ⟨r3, d3⟩
        rcases r3 with e3 | v3 <;> rw [h3] at h
        · simp_all
        · obtain ⟨hv3, hc3, hl3⟩ := read_byte_ok_elim h3
          dsimp only at h
          rcases h4 : read_byte data d3 with ⟨r4, d4⟩
          rcases r4 with e4 | v4 <;> rw [h4] at h
          · simp_all
          · obtain ⟨hv4, hc4, hl4⟩ := read_byte_ok_elim h4
            omega
  · by_cases hb : c + 4 ≤ data.length
    · rw [read_pixel_eval_other hd hb] at h
      rw [Prod.mk.injEq, Except.ok.injEq] at h
      obtain ⟨hp, hc⟩ := h
      subst hp
      exact ⟨fun h24 => absurd h24 hd,
        fun _ => ⟨rfl, rfl, rfl, rfl, hc.symm, hb⟩⟩
    · unfold read_pixel at h
      rw [if_neg hd] at h
      rcases h1 : read_byte data c with ⟨r1, d1⟩
      rcases r1 with e1 | v1 <;> rw [h1] at h
      · simp_all
      · obtain ⟨hv1, hc1, hl1⟩ := read_byte_ok_elim h1
        dsimp only at h
        rcases h2 : read_byte data d1 with ⟨r2, d2⟩
        rcases r2 with e2 | v2 <;> rw [h2] at h
        · simp_all
        · obtain ⟨hv2, hc2, hl2⟩ := read_byte_ok_elim h2
          dsimp only at h
          rcases h3 : read_byte data d2 with ⟨r3, d3⟩
          rcases r3 with e3 | v3 <;> rw [h3] at h
          · simp_all
          · obtain ⟨hv3, hc3, hl3⟩ := read_byte_ok_elim h3
            dsimp only at h
            rcases h4 : read_byte data d3 with ⟨r4, d4⟩
            rcases r4 with e4 | v4 <;> rw [h4] at h
            · simp_all
            · obtain ⟨hv4, hc4, hl4⟩ := read_byte_ok_elim h4
              omega

theorem read_row_pixels_alpha0 :
    ∀ (n c : Nat) (ps : List Pixel) (c' : Nat),
      read_row_pixels data 24 n c = (Except.ok ps, c') →
      ∀ p ∈ ps, p.alpha = 0 := by
  intro n
  induction n with
  | zero =>
    intro c ps c' h p hp
    unfold read_row_pixels at h
    simp_all
  | succ k ih =>
    intro c ps c' h p hp
    unfold read_row_pixels at h
    rcases h1 : read_pixel data 24 c with ⟨r1, d1⟩
    rcases r1 with e1 | q <;> rw [h1] at h
    · simp_all
    · dsimp only at h
      rcases h2 : read_row_pixels data 24 k d1 with ⟨r2, d2⟩
      rcases r2 with e2 | qs <;> rw [h2] at h
      · simp_all
      · have hps : ps = q :: qs := by simp_all
        subst hps
        rcases List.mem_cons.mp hp with hp | hp
        · subst hp
          exact ((read_pixel_ok_elim h1).1 rfl).1
        · exact ih d1 qs d2 h2 p hp

theorem read_rows_alpha0 {w pad : Nat} :
    ∀ (hgt c : Nat) (rows : List (List Pixel)) (c' : Nat),
      read_rows data 24 w pad hgt c = (Except.ok rows, c') →
      ∀ row ∈ rows, ∀ p ∈ row, p.alpha = 0 := by
  intro hgt
  induction hgt with
  | zero =>
    intro c rows c' h row hrow
    unfold read_rows at h
    simp_all
  | succ k ih =>
    intro c rows c' h row hrow p hp
    unfold read_rows at h
    rcases h1 : read_row data 24 w pad c with ⟨r1, d1⟩
    rcases r1 with e1 | q <;> rw [h1] at h
    · simp_all
    · dsimp only at h
      rcases h2 : read_rows data 24 w pad k d1 with ⟨r2, d2⟩
      rcases r2 with e2 | qs <;> rw [h2] at h
      · simp_all
      · have hrows : rows = q :: qs := by simp_all
        subst hrows
        rcases List.mem_cons.mp hrow with hrow | hrow
        · subst hrow
          unfold read_row at h1
          rcases h3 : read_row_pixels data 24 w c with ⟨r3, d3⟩
          rcases r3 with e3 | ps <;> rw [h3] at h1
          · simp_all
          · dsimp only at h1
            rcases h4 : consume_n data d3 pad with ⟨r4, d4⟩
            rcases r4 with e4 | u <;> rw [h4] at h1
            · simp_all
            · have : row = ps := by simp_all
              subst this
              exact read_row_pixels_alpha0 w c row d3 h3 p hp
        · exact ih d1 qs d2 h2 row hrow p hp

theorem read_rows_width0 {depth : Nat} :
    ∀ (hgt c : Nat), c ≤ data.length →
      read_rows data depth 0 0 hgt c = (Except.ok (List.replicate hgt []), c) := by
  intro hgt
  induction hgt with
  | zero =>
    intro c hc
    unfold read_rows
    simp
  | succ k ih =>
    intro c hc
    unfold read_rows read_row read_row_pixels
    dsimp only
    rw [consume_n_eval (by omega)]
    dsimp only
    simp only [Nat.add_zero]
    rw [ih c hc]
    simp [List.replicate_succ]

theorem read_dword_ok_elim {v : Nat} (h : read_dword data c = (Except.ok v, c')) :
    c' = c + 4 ∧ c + 4 ≤ data.length :=
  read_dword_host_ok_elim h

theorem read_dword_err_elim {m : String} (h : read_dword data c = (Except.error m, c')) :
    m = outOfBoundsMsg ∧ c' = c ∧ data.length < c + 4 :=
  read_dword_host_err_elim h

theorem read_word_ok_elim {v : Nat} (h : read_word data c = (Except.ok v, c')) :
    c' = c + 2 ∧ c + 2 ≤ data.length :=
  read_word_host_ok_elim h

theorem read_word_err_elim {m : String} (h : read_word data c = (Except.error m, c')) :
    m = outOfBoundsMsg ∧ c' = c ∧ data.length < c + 2 :=
  read_word_host_err_elim h

end Lemmas

section Claims

/-- Claim C9: the claim says `read_dword` / `read_word` return the
little-endian value of the next bytes independent of host machine byte
order. The code transmutes the byte array in host order, so on a
big-endian host the 4-byte group `1, 0, 0, 0` decodes to 16777216 instead
of the little-endian value 1 (and the 2-byte group `1, 0` to 256 instead
of 1): the result does depend on the host byte order. -/
theorem claim_C9_host_order_dependent :
    read_dword_host ByteOrder.little [1, 0, 0, 0] 0 = (Except.ok 1, 4) ∧
    read_dword_host ByteOrder.big [1, 0, 0, 0] 0 = (Except.ok 16777216, 4) ∧
    read_word_host ByteOrder.little [1, 0] 0 = (Except.ok 1, 2) ∧
    read_word_host ByteOrder.big [1, 0] 0 = (Except.ok 256, 2) ∧
    (16777216 : Nat) ≠ 1 ∧ (256 : Nat) ≠ 1 := by
  refine ⟨rfl, rfl, rfl, rfl, by decide, by decide⟩

/-- Claim C2, counterexample: a buffer of 13 zero bytes has first two
bytes that are not `'B'`,`'M'`, yet `decode_bmp` fails with the
out-of-bounds error, not `InvalidMagic` — the 14-byte header consume runs
before the magic check. -/
theorem claim_C2_counterexample :
    decode_bmp (List.replicate 13 0) = Except.error outOfBoundsMsg ∧
    outOfBoundsMsg ≠ invalidMagicMsg := by
  refine ⟨rfl, by decide⟩

/-- Claim C2 as amended: a buffer of length at least 14 whose first two
bytes are not `'B'` (66), `'M'` (77) fails with `InvalidMagic`; a buffer
shorter than 14 bytes fails with `OutOfBounds` instead. -/
theorem claim_C2_invalid_magic (data : Buf) :
    (14 ≤ data.length → data.getD 0 0 ≠ 66 ∨ data.getD 1 0 ≠ 77 →
      decode_bmp data = Except.error invalidMagicMsg) ∧
    (data.length < 14 → decode_bmp data = Except.error outOfBoundsMsg) := by
  constructor
  · intro hlen hbad
    unfold decode_bmp
    rw [read_bmp_header_char]
    rw [if_neg (by omega), if_pos hbad]
  · intro hlen
    unfold decode_bmp
    rw [read_bmp_header_char]
    rw [if_pos (by omega)]

/-- Witness for claim C2 at two concrete buffers: 14 zero bytes (bad
magic, long enough) and the empty buffer (too short). -/
theorem claim_C2_witness :
    decode_bmp (List.replicate 14 0) = Except.error invalidMagicMsg ∧
    decode_bmp [] = Except.error outOfBoundsMsg :=
  ⟨(claim_C2_invalid_magic (List.replicate 14 0)).1 (by decide) (by decide),
   (claim_C2_invalid_magic []).2 (by decide)⟩

/-- Claim C6: every cursor operation keeps the cursor within
`0 ≤ cursor ≤ len(buffer)`, fails with `OutOfBounds` exactly when
`cursor + n` exceeds the buffer length (`n` being the operation's size),
and on any failure leaves the cursor exactly where it was. -/
theorem claim_C6_cursor_invariant (data : Buf) (c n : Nat) (h : c ≤ data.length) :
    ((consume_n data c n).2 ≤ data.length ∧
      ((consume_n data c n).1 = Except.error outOfBoundsMsg ↔ data.length < c + n) ∧
      (∀ m, (consume_n data c n).1 = Except.error m → (consume_n data c n).2 = c)) ∧
    ((read_n_bytes data c n).2 ≤ data.length ∧
      ((read_n_bytes data c n).1 = Except.error outOfBoundsMsg ↔ data.length < c + n) ∧
      (∀ m, (read_n_bytes data c n).1 = Except.error m → (read_n_bytes data c n).2 = c)) ∧
    ((read_byte data c).2 ≤ data.length ∧
      ((read_byte data c).1 = Except.error outOfBoundsMsg ↔ data.length < c + 1) ∧
      (∀ m, (read_byte data c).1 = Except.error m → (read_byte data c).2 = c)) ∧
    ((read_word data c).2 ≤ data.length ∧
      ((read_word data c).1 = Except.error outOfBoundsMsg ↔ data.length < c + 2) ∧
      (∀ m, (read_word data c).1 = Except.error m → (read_word data c).2 = c)) ∧
    ((read_dword data c).2 ≤ data.length ∧
      ((read_dword data c).1 = Except.error outOfBoundsMsg ↔ data.length < c + 4) ∧
      (∀ m, (read_dword data c).1 = Except.error m → (read_dword data c).2 = c)) := by
  refine ⟨?_, ?_, ?_, ?_, ?_⟩
  · unfold consume_n
    split <;> simp_all <;> omega
  · by_cases hb : c + n ≤ data.length
    · rw [read_n_bytes_eval hb]
      simp
      omega
    · rw [read_n_bytes_err_eval (by omega)]
      simp
      omega
  · by_cases hb : c + 1 ≤ data.length
    · rw [read_byte_eval hb]
      simp
      omega
    · rw [read_byte_err_eval (by omega)]
      simp
      omega
  · unfold read_word
    by_cases hb : c + 2 ≤ data.length
    · rw [read_word_host_eval hb]
      simp
      omega
    · rw [read_word_host_err_eval (by omega)]
      simp
      omega
  · unfold read_dword
    by_cases hb : c + 4 ≤ data.length
    · rw [read_dword_host_eval hb]
      simp
      omega
    · rw [read_dword_host_err_eval (by omega)]
      simp
      omega

/-- Witness for claim C6 at the concrete buffer `[5, 6]`, cursor 1,
`n = 5`: the failing `consume_n` reports `OutOfBounds` and leaves the
cursor at 1, and the in-bounds `read_byte` lands at 2. -/
theorem claim_C6_witness :
    (consume_n [5, 6] 1 5).1 = Except.error outOfBoundsMsg ∧
    (consume_n [5, 6] 1 5).2 = 1 ∧
    (read_byte [5, 6] 1).2 ≤ 2 :=
  ⟨((claim_C6_cursor_invariant [5, 6] 1 5 (by decide)).1.2.1).mpr (by decide),
   (claim_C6_cursor_invariant [5, 6] 1 5 (by decide)).1.2.2 _
     (((claim_C6_cursor_invariant [5, 6] 1 5 (by decide)).1.2.1).mpr (by decide)),
   (claim_C6_cursor_invariant [5, 6] 1 5 (by decide)).2.2.1.1⟩

/-- Claim C7: with a readable 4-byte length field at the cursor,
`read_dib_header` fails with `UnsupportedHeaderVariant` exactly when the
declared header length is not one of 40, 52, 56, 108, 124. -/
theorem claim_C7_header_variant (data : Buf) (c L : Nat) (h4 : c + 4 ≤ data.length)
    (hL : (read_dword data c).1 = Except.ok L) :
    ((read_dib_header data c).1 = Except.error unsupportedHeaderMsg ↔
      ¬(L = 40 ∨ L = 52 ∨ L = 56 ∨ L = 108 ∨ L = 124)) := by
  rw [read_dword_eval h4] at hL
  simp only [Except.ok.injEq] at hL
  subst hL
  unfold read_dib_header
  rw [read_dword_eval h4]
  dsimp only
  by_cases hacc : dwordAt data c = 40 ∨ dwordAt data c = 52 ∨ dwordAt data c = 56 ∨
      dwordAt data c = 108 ∨ dwordAt data c = 124
  · rw [if_pos hacc]
    refine iff_of_false ?_ (fun hn => hn hacc)
    intro hbad
    rcases h1 : read_dword data (c + 4) with ⟨r1, cB⟩
    rcases r1 with e1 | w <;> rw [h1] at hbad
    · obtain ⟨he, -, -⟩ := read_dword_err_elim h1
      subst he
      simp [outOfBoundsMsg, unsupportedHeaderMsg] at hbad
    · dsimp only at hbad
      rcases h2 : read_dword data cB with ⟨r2, cC⟩
      rcases r2 with e2 | ht <;> rw [h2] at hbad
      · obtain ⟨he, -, -⟩ := read_dword_err_elim h2
        subst he
        simp [outOfBoundsMsg, unsupportedHeaderMsg] at hbad
      · dsimp only at hbad
        rcases h3 : consume_n data cC 2 with ⟨r3, cD⟩
        rcases r3 with e3 | u3 <;> rw [h3] at hbad
        · obtain ⟨he, -, -⟩ := consume_n_err_elim h3
          subst he
          simp [outOfBoundsMsg, unsupportedHeaderMsg] at hbad
        · dsimp only at hbad
          rcases h4w : read_word data cD with ⟨r4, cE⟩
          rcases r4 with e4 | dep <;> rw [h4w] at hbad
          · obtain ⟨he, -, -⟩ := read_word_err_elim h4w
            subst he
            simp [outOfBoundsMsg, unsupportedHeaderMsg] at hbad
          · dsimp only at hbad
            by_cases hdep : dep = 24 ∨ dep = 32
            · rw [if_pos hdep] at hbad
              rcases h5 : consume_n data cE (dwordAt data c - 16) with ⟨r5, cF⟩
              rcases r5 with e5 | u5 <;> rw [h5] at hbad
              · obtain ⟨he, -, -⟩ := consume_n_err_elim h5
                subst he
                simp [outOfBoundsMsg, unsupportedHeaderMsg] at hbad
              · simp at hbad
            · rw [if_neg hdep] at hbad
              simp [unsupportedDepthMsg, unsupportedHeaderMsg] at hbad
  · rw [if_neg hacc]
    exact iff_of_true rfl hacc

/-- Witness for claim C7: a declared header length of 12 (the obsolete
BITMAPCOREHEADER size) is rejected with `UnsupportedHeaderVariant`. -/
theorem claim_C7_witness :
    (read_dib_header [12, 0, 0, 0] 0).1 = Except.error unsupportedHeaderMsg :=
  (claim_C7_header_variant [12, 0, 0, 0] 0 12 (by decide) rfl).mpr (by decide)

/-- Claim C8: when the buffer reaches the 2-byte bit-depth field (16
readable bytes from the DIB start) and the declared header length is
accepted, `read_dib_header` fails with `UnsupportedBitDepth` exactly when
the depth value is neither 24 nor 32. -/
theorem claim_C8_bit_depth (data : Buf) (c L d : Nat) (h16 : c + 16 ≤ data.length)
    (hL : (read_dword data c).1 = Except.ok L)
    (hacc : L = 40 ∨ L = 52 ∨ L = 56 ∨ L = 108 ∨ L = 124)
    (hd : (read_word data (c + 14)).1 = Except.ok d) :
    ((read_dib_header data c).1 = Except.error unsupportedDepthMsg ↔
      ¬(d = 24 ∨ d = 32)) := by
  rw [read_dword_eval (by omega)] at hL
  simp only [Except.ok.injEq] at hL
  subst hL
  rw [read_word_eval (by omega)] at hd
  simp only [Except.ok.injEq] at hd
  subst hd
  unfold read_dib_header
  rw [read_dword_eval (by omega)]
  dsimp only
  rw [if_pos hacc]
  rw [read_dword_eval (by omega)]
  dsimp only
  rw [read_dword_eval (by omega)]
  dsimp only
  rw [consume_n_eval (by omega)]
  dsimp only
  rw [read_word_eval (by omega)]
  dsimp only
  have hnorm : c + 4 + 4 + 4 + 2 = c + 14 := by omega
  rw [hnorm]
  by_cases hdep : wordAt data (c + 14) = 24 ∨ wordAt data (c + 14) = 32
  · rw [if_pos hdep]
    refine iff_of_false ?_ (fun hn => hn hdep)
    intro hbad
    rcases h5 : consume_n data (c + 14 + 2) (dwordAt data c - 16) with ⟨r5, cF⟩
    rcases r5 with e5 | u5 <;> rw [h5] at hbad
    · obtain ⟨he, -, -⟩ := consume_n_err_elim h5
      subst he
      simp [outOfBoundsMsg, unsupportedDepthMsg] at hbad
    · simp at hbad
  · rw [if_neg hdep]
    exact iff_of_true rfl hdep

/-- Witness for claim C8: a DIB header with accepted length 40 and bit
depth 8 is rejected with `UnsupportedBitDepth`. -/
theorem claim_C8_witness :
    (read_dib_header exDib8 0).1 = Except.error unsupportedDepthMsg :=
  (claim_C8_bit_depth exDib8 0 40 8 (by decide) rfl (by decide) rfl).mpr (by decide)

/-- Claim C3: when the file-header stage (from cursor 0) and the
DIB-header stage both succeed, with declared header length `L`, the
length is one of 40, 52, 56, 108, 124 and the cursor stands at exactly
`14 + L` when pixel decoding begins. -/
theorem claim_C3_header_consumption (data : Buf) (u : Unit) (c1 : Nat)
    (info : DIBHeader) (c2 L : Nat)
    (hh : read_bmp_header data 0 = (Except.ok u, c1))
    (hd : read_dib_header data c1 = (Except.ok info, c2))
    (hL : (read_dword data c1).1 = Except.ok L) :
    c1 = 14 ∧ (L = 40 ∨ L = 52 ∨ L = 56 ∨ L = 108 ∨ L = 124) ∧ c2 = 14 + L := by
  rw [read_bmp_header_char] at hh
  have hc1 : c1 = 14 := by
    split at hh
    · simp_all
    · split at hh <;> simp_all
  subst hc1
  unfold read_dib_header at hd
  rcases h1 : read_dword data 14 with ⟨r1, cA⟩
  rw [h1] at hd hL
  rcases r1 with e1 | v
  · simp at hL
  · simp only [Except.ok.injEq] at hL
    subst hL
    obtain ⟨hcA, -⟩ := read_dword_ok_elim h1
    dsimp only at hd
    by_cases hacc : v = 40 ∨ v = 52 ∨ v = 56 ∨ v = 108 ∨ v = 124
    · rw [if_pos hacc] at hd
      rcases h2 : read_dword data cA with ⟨r2, cB⟩
      rw [h2] at hd
      rcases r2 with e2 | w
      · simp at hd
      · obtain ⟨hcB, -⟩ := read_dword_ok_elim h2
        dsimp only at hd
        rcases h3 : read_dword data cB with ⟨r3, cC⟩
        rw [h3] at hd
        rcases r3 with e3 | ht
        · simp at hd
        · obtain ⟨hcC, -⟩ := read_dword_ok_elim h3
          dsimp only at hd
          rcases h4 : consume_n data cC 2 with ⟨r4, cD⟩
          rw [h4] at hd
          rcases r4 with e4 | u4
          · simp at hd
          · obtain ⟨-, hcD⟩ := consume_n_ok_iff.mp h4
            dsimp only at hd
            rcases h5 : read_word data cD with ⟨r5, cE⟩
            rw [h5] at hd
            rcases r5 with e5 | dep
            · simp at hd
            · obtain ⟨hcE, -⟩ := read_word_ok_elim h5
              dsimp only at hd
              split at hd
              · rcases h6 : consume_n data cE (v - 16) with ⟨r6, cF⟩
                rw [h6] at hd
                rcases r6 with e6 | u6
                · simp at hd
                · obtain ⟨-, hcF⟩ := consume_n_ok_iff.mp h6
                  have hc2 : cF = c2 := by
                    simp only [Prod.mk.injEq, Except.ok.injEq] at hd
                    exact hd.2
                  refine ⟨rfl, hacc, ?_⟩
                  rcases hacc with h' | h' | h' | h' | h' <;> omega
              · simp at hd
    · rw [if_neg hacc] at hd
      simp at hd

/-- Witness for claim C3: a buffer holding exactly a valid file header
and a 40-byte DIB header (width 1, height 1, depth 24): both stages
succeed and the cursor lands at 14 + 40 = 54. -/
theorem claim_C3_witness :
    (14 : Nat) = 14 ∧ ((40 : Nat) = 40 ∨ (40 : Nat) = 52 ∨ (40 : Nat) = 56 ∨
      (40 : Nat) = 108 ∨ (40 : Nat) = 124) ∧ (54 : Nat) = 14 + 40 :=
  claim_C3_header_consumption exBufHeaderOnly () 14 ⟨1, 1, 24⟩ 54 40 rfl rfl rfl

/-- Claim C1, counterexample: in the 1×1 32-bit file `exBuf32` the single
pixel's 4-byte group is stored at offsets 54–57 as `10, 20, 30, 40`; the
decoded alpha is 10 (the 1st stored byte), not the 4th stored byte 40 —
the code reads alpha first, then blue, green, red. -/
theorem claim_C1_counterexample :
    decode_bmp exBuf32 = Except.ok ⟨1, 1, [[⟨40, 30, 20, 10⟩]]⟩ ∧
    exBuf32.getD 54 0 = 10 ∧ exBuf32.getD 57 0 = 40 ∧ (10 : Nat) ≠ 40 := by
  refine ⟨rfl, rfl, rfl, by decide⟩

/-- Claim C1 as amended: for depth 24 every decoded pixel's alpha is 0,
and for depth 32 each pixel's alpha equals the 1st stored byte of that
pixel's 4-byte group (the remaining bytes being blue, green, red in
storage order). -/
theorem claim_C1_alpha (data : Buf) :
    (∀ (info : DIBHeader) (c : Nat) (grid : List (List Pixel)) (c' : Nat),
      info.depth = 24 →
      read_pixel_array data info c = (Except.ok grid, c') →
      ∀ row ∈ grid, ∀ p ∈ row, p.alpha = 0) ∧
    (∀ (c : Nat) (p : Pixel) (c' : Nat),
      read_pixel data 32 c = (Except.ok p, c') →
      p.alpha = data.getD c 0 ∧ p.blue = data.getD (c + 1) 0 ∧
      p.green = data.getD (c + 2) 0 ∧ p.red = data.getD (c + 3) 0 ∧
      c' = c + 4 ∧ c + 4 ≤ data.length) := by
  constructor
  · intro info c grid c' hdep h row hrow p hp
    unfold read_pixel_array at h
    rw [hdep] at h
    rcases h1 : read_rows data 24 info.width (info.width % 4) info.height c
      with ⟨r1, cc⟩
    rw [h1] at h
    rcases r1 with e | rows
    · simp at h
    · dsimp only at h
      have hg : rows.reverse = grid := by
        simp only [Prod.mk.injEq, Except.ok.injEq] at h
        exact h.1
      have hrow' : row ∈ rows := by
        rw [← hg] at hrow
        exact List.mem_reverse.mp hrow
      exact read_rows_alpha0 info.height c rows cc h1 row hrow' p hp
  · intro c p c' h
    exact (read_pixel_ok_elim h).2 (by omega)

/-- Witness for claim C1: the decoded 24-bit row over `exRowBuf` has
alpha 0 on its first pixel, and the 32-bit pixel read over
`[10, 20, 30, 40]` takes its channels from the stored bytes with alpha
first. -/
theorem claim_C1_witness :
    (Pixel.mk 0 0 255 0).alpha = 0 ∧
    ((Pixel.mk 40 30 20 10).alpha = ([10, 20, 30, 40] : Buf).getD 0 0 ∧
      (Pixel.mk 40 30 20 10).blue = ([10, 20, 30, 40] : Buf).getD 1 0 ∧
      (Pixel.mk 40 30 20 10).green = ([10, 20, 30, 40] : Buf).getD 2 0 ∧
      (Pixel.mk 40 30 20 10).red = ([10, 20, 30, 40] : Buf).getD 3 0 ∧
      (4 : Nat) = 0 + 4 ∧ 0 + 4 ≤ ([10, 20, 30, 40] : Buf).length) :=
  ⟨(claim_C1_alpha exRowBuf).1 ⟨2, 1, 24⟩ 0 [[⟨0, 0, 255, 0⟩, ⟨0, 255, 0, 0⟩]] 8
      rfl rfl [⟨0, 0, 255, 0⟩, ⟨0, 255, 0, 0⟩] (by simp) ⟨0, 0, 255, 0⟩ (by simp),
   (claim_C1_alpha [10, 20, 30, 40]).2 0 ⟨40, 30, 20, 10⟩ 4 rfl⟩

/-- Claim C4: in each row iteration, once the `width` pixels of the row
have been read, the padding skip consumes exactly `width % 4` bytes
(whatever the bit depth), and `read_pixel_array` runs its rows with
exactly that pad count. -/
theorem claim_C4_row_padding :
    (∀ (data : Buf) (depth w c : Nat) (row : List Pixel) (c2 : Nat),
      read_row data depth w (w % 4) c = (Except.ok row, c2) →
      ∃ c1, read_row_pixels data depth w c = (Except.ok row, c1) ∧
        consume_n data c1 (w % 4) = (Except.ok (), c2) ∧ c2 = c1 + w % 4) ∧
    (∀ (data : Buf) (info : DIBHeader) (c : Nat) (rows : List (List Pixel))
        (c' : Nat),
      read_rows data info.depth info.width (info.width % 4) info.height c =
        (Except.ok rows, c') →
      read_pixel_array data info c = (Except.ok rows.reverse, c')) := by
  constructor
  · intro data depth w c row c2 h
    unfold read_row at h
    rcases h1 : read_row_pixels data depth w c with ⟨r1, c1⟩
    rw [h1] at h
    rcases r1 with e | ps
    · simp at h
    · dsimp only at h
      rcases h2 : consume_n data c1 (w % 4) with ⟨r2, cc⟩
      rw [h2] at h
      rcases r2 with e | u
      · simp at h
      · cases u
        obtain ⟨hb, hc⟩ := consume_n_ok_iff.mp h2
        have hps : ps = row ∧ cc = c2 := by
          simp only [Prod.mk.injEq, Except.ok.injEq] at h
          exact h
        obtain ⟨hps, hcc⟩ := hps
        subst hps
        subst hcc
        exact ⟨c1, rfl, h2, by omega⟩
  · intro data info c rows c' h
    unfold read_pixel_array
    rw [h]

/-- Witness for claim C4 over the single row `exRowBuf` (width 2, depth
24): the two pixels end at cursor 6 and the pad skip of `2 % 4 = 2` bytes
lands the cursor at 8. -/
theorem claim_C4_witness :
    ∃ c1, read_row_pixels exRowBuf 24 2 0 =
        (Except.ok [⟨0, 0, 255, 0⟩, ⟨0, 255, 0, 0⟩], c1) ∧
      consume_n exRowBuf c1 (2 % 4) = (Except.ok (), 8) ∧ (8 : Nat) = c1 + 2 % 4 :=
  claim_C4_row_padding.1 exRowBuf 24 2 0 [⟨0, 0, 255, 0⟩, ⟨0, 255, 0, 0⟩] 8 rfl

/-- Claim C5: a successful `read_pixel_array` returns exactly the reverse
of the storage-order row list: output row `i` is stored row
`height - 1 - i`, so row 0 of the output is the last stored row and the
last output row is the first stored row. -/
theorem claim_C5_vertical_flip (data : Buf) (info : DIBHeader) (c : Nat)
    (grid : List (List Pixel)) (c' : Nat)
    (h : read_pixel_array data info c = (Except.ok grid, c')) :
    ∃ stored,
      read_rows data info.depth info.width (info.width % 4) info.height c =
        (Except.ok stored, c') ∧
      grid = stored.reverse ∧ grid.length = stored.length ∧
      ∀ i, i < grid.length → grid.get? i = stored.get? (grid.length - 1 - i) := by
  unfold read_pixel_array at h
  rcases h1 : read_rows data info.depth info.width (info.width % 4) info.height c
    with ⟨r1, cc⟩
  rw [h1] at h
  rcases r1 with e | rows
  · simp at h
  · dsimp only at h
    have hg : rows.reverse = grid ∧ cc = c' := by
      simp only [Prod.mk.injEq, Except.ok.injEq] at h
      exact h
    obtain ⟨hg, hcc⟩ := hg
    subst hcc
    refine ⟨rows, rfl, hg.symm, ?_, ?_⟩
    · rw [← hg]
      simp
    · intro i hi
      rw [← hg] at hi ⊢
      simp only [List.length_reverse] at hi ⊢
      exact List.get?_reverse hi

/-- Witness for claim C5 over the 2×2 24-bit pixel array `exStoredRows`:
the output grid is the two stored rows in reverse order. -/
theorem claim_C5_witness :
    ∃ stored,
      read_rows exStoredRows 24 2 (2 % 4) 2 0 = (Except.ok stored, 16) ∧
      [[⟨255, 0, 0, 0⟩, ⟨1, 1, 1, 0⟩], [⟨0, 0, 255, 0⟩, ⟨0, 255, 0, 0⟩]] =
        stored.reverse ∧
      ([[⟨255, 0, 0, 0⟩, ⟨1, 1, 1, 0⟩], [⟨0, 0, 255, 0⟩, ⟨0, 255, 0, 0⟩]] :
        List (List Pixel)).length = stored.length ∧
      ∀ i, i < ([[⟨255, 0, 0, 0⟩, ⟨1, 1, 1, 0⟩],
          [⟨0, 0, 255, 0⟩, ⟨0, 255, 0, 0⟩]] : List (List Pixel)).length →
        ([[⟨255, 0, 0, 0⟩, ⟨1, 1, 1, 0⟩], [⟨0, 0, 255, 0⟩, ⟨0, 255, 0, 0⟩]] :
          List (List Pixel)).get? i =
        stored.get? (([[⟨255, 0, 0, 0⟩, ⟨1, 1, 1, 0⟩],
          [⟨0, 0, 255, 0⟩, ⟨0, 255, 0, 0⟩]] : List (List Pixel)).length - 1 - i) :=
  claim_C5_vertical_flip exStoredRows ⟨2, 2, 24⟩ 0
    [[⟨255, 0, 0, 0⟩, ⟨1, 1, 1, 0⟩], [⟨0, 0, 255, 0⟩, ⟨0, 255, 0, 0⟩]] 16 rfl

/-- Claim C10: with the cursor in bounds, `read_pixel_array` succeeds on
zero dimensions: height 0 yields an empty grid consuming no bytes; width
0 yields `height` empty rows, also consuming no bytes. -/
theorem claim_C10_zero_dims (data : Buf) (info : DIBHeader) (c : Nat)
    (h : c ≤ data.length) :
    (info.height = 0 → read_pixel_array data info c = (Except.ok [], c)) ∧
    (info.width = 0 →
      read_pixel_array data info c =
        (Except.ok (List.replicate info.height []), c) ∧
      (List.replicate info.height ([] : List Pixel)).length = info.height ∧
      ∀ row ∈ List.replicate info.height ([] : List Pixel), row = []) := by
  constructor
  · intro h0
    unfold read_pixel_array
    rw [h0]
    simp [read_rows]
  · intro h0
    refine ⟨?_, by simp, fun row hrow => List.eq_of_mem_replicate hrow⟩
    unfold read_pixel_array
    rw [h0]
    norm_num
    rw [read_rows_width0 info.height c h]
    simp

/-- Witness for claim C10: width 0, height 3 over the empty buffer:
three empty rows, cursor untouched at 0. -/
theorem claim_C10_witness :
    read_pixel_array [] ⟨0, 3, 24⟩ 0 = (Except.ok [[], [], []], 0) :=
  ((claim_C10_zero_dims [] ⟨0, 3, 24⟩ 0 (by decide)).2 rfl).1

end Claims

end Bmp
